import Mathlib

/-!
# Verification of the congestion data pipeline (`src/data.py`, `src/ui.py`)

Shallow embedding of the Seoul-subway congestion dashboard's data pipeline.
A pandas `DataFrame` is modelled as a header list plus rows of cells; a cell
is either text, a (rational) number, or missing (`NaN`).  `pd.to_numeric(x,
errors="coerce")` is embedded as decimal parsing into `Rat` (missing on
failure), and the `pd.Categorical` conversion over the fixed 39 time labels
is embedded as a partial map into the label domain (out-of-domain labels
become missing, exactly as pandas maps non-category values to `NaN`).
-/

/-- A cell of a data frame: a string, a number, or missing (`NaN`). -/
inductive Cell where
  | str : String → Cell
  | num : Rat → Cell
  | na : Cell
deriving DecidableEq

/-- A data frame: column headers plus rows of cells, positionally aligned
(the cell for header `headers[j]` in a row is the row's `j`-th entry). -/
structure DataFrame where
  headers : List String
  rows : List (List Cell)
deriving DecidableEq

/-- Cell of row `i`, column position `j` (missing when out of range). -/
def DataFrame.cell (df : DataFrame) (i j : Nat) : Cell :=
  (df.rows.getD i []).getD j Cell.na

/-- The cell a row holds for a named column (missing when the column is
absent), mirroring positional lookup of a pandas column label. -/
def rowCell (headers : List String) (row : List Cell) (c : String) : Cell :=
  match headers.indexOf? c with
  | some j => row.getD j Cell.na
  | none => Cell.na

/-- `data.py` `TIME_ORDER`: the 39 canonical half-hour labels, 05:30 through
00:30, wrapping past midnight. -/
def TIME_ORDER : List String := [
  "05:30", "06:00", "06:30", "07:00", "07:30", "08:00", "08:30", "09:00", "09:30",
  "10:00", "10:30", "11:00", "11:30", "12:00", "12:30", "13:00", "13:30", "14:00",
  "14:30", "15:00", "15:30", "16:00", "16:30", "17:00", "17:30", "18:00", "18:30",
  "19:00", "19:30", "20:00", "20:30", "21:00", "21:30", "22:00", "22:30", "23:00",
  "23:30", "00:00", "00:30"]

/-- Rank of a label in the canonical sequence (`TIME_ORDER.length` when the
label is not canonical); this is the categorical code pandas attaches. -/
def timeRank (s : String) : Nat := TIME_ORDER.indexOf s

/-- The strict order the pipeline attaches to `time_slot` values: comparison
of positions in `TIME_ORDER` (the ordered-categorical comparison). -/
def time_slot_lt (a b : String) : Bool := timeRank a < timeRank b

/-- Maximal decimal-digit prefix of a character list, with the remainder. -/
def takeDigits : List Char → List Char × List Char
  | [] => ([], [])
  | c :: cs =>
    if c.isDigit then
      let (ds, r) := takeDigits cs
      (c :: ds, r)
    else ([], c :: cs)

/-- Value of a decimal digit run (the semantics of Python `int` on the
digit-only groups captured by the pattern). -/
def digitsVal (ds : List Char) : Nat :=
  ds.foldl (fun n c => n * 10 + (c.toNat - '0'.toNat)) 0

/-- One attempt of the pattern `(\d+)시(\d+)분` anchored at the head of the
list: a maximal digit run, then `'시'`, a maximal digit run, then `'분'`. -/
def matchTimeAt (cs : List Char) : Option (Nat × Nat) :=
  let (ds, r) := takeDigits cs
  if ds.isEmpty then none
  else
    match r with
    | '시' :: r2 =>
      let (ms, r3) := takeDigits r2
      if ms.isEmpty then none
      else
        match r3 with
        | '분' :: _ => some (digitsVal ds, digitsVal ms)
        | _ => none
    | _ => none

/-- `re.search` for `(\d+)시(\d+)분`: the leftmost position where the
pattern matches (greedy digit runs make backtracking inside a run moot). -/
def findTimeMatch : List Char → Option (Nat × Nat)
  | [] => none
  | c :: cs =>
    match matchTimeAt (c :: cs) with
    | some hm => some hm
    | none => findTimeMatch cs

/-- Zero-padded rendering of `f"{n:02d}"` (pads to width 2, never
truncates). -/
def pad2 (n : Nat) : String :=
  if n < 10 then "0" ++ toString n else toString n

/-- `data.py` `format_time_column`: normalize a header like `"5시30분"` to
`"05:30"` via the pattern `(\d+)시(\d+)분`; a non-matching header is
returned unchanged. -/
def format_time_column (time_str : String) : String :=
  match findTimeMatch time_str.data with
  | some (h, m) => pad2 h ++ ":" ++ pad2 m
  | none => time_str

/-- Is every character of the list a decimal digit (and the list nonempty)?
Used to embed Python `int` on a plain unsigned digit string. -/
def allDigits (ds : List Char) : Bool := !ds.isEmpty && ds.all Char.isDigit

/-- Python `str.strip()`: drop whitespace from both ends. -/
def pyStrip (s : String) : String :=
  ⟨((s.data.dropWhile Char.isWhitespace).reverse.dropWhile Char.isWhitespace).reverse⟩

/-- Decimal parsing embedding `pd.to_numeric(·, errors="coerce")` on a text
cell: optional surrounding whitespace, optional sign, then either `d+`,
`d+.d*` or `.d+`; anything else fails to parse. -/
def parseNumeric (s : String) : Option Rat :=
  let t := (pyStrip s).data
  let (sgn, body) : Int × List Char :=
    match t with
    | '-' :: r => (-1, r)
    | '+' :: r => (1, r)
    | r => (1, r)
  match body.splitOn '.' with
  | [ds] =>
    if allDigits ds then some (mkRat (sgn * (digitsVal ds : Int)) 1) else none
  | [ds, fs] =>
    if (allDigits ds || ds.isEmpty) && (allDigits fs || fs.isEmpty)
        && !(ds.isEmpty && fs.isEmpty) then
      some (mkRat (sgn * ((digitsVal ds : Int) * (10 : Int) ^ fs.length + (digitsVal fs : Int)))
        ((10 : Nat) ^ fs.length))
    else none
  | _ => none

/-- Numeric coercion of a whole cell: numbers pass through, text is parsed,
missing stays missing — `pd.to_numeric(·, errors="coerce")`. -/
def toNumericCell : Cell → Option Rat
  | Cell.num q => some q
  | Cell.str s => parseNumeric s
  | Cell.na => none

/-- Python `str(cell)`: missing values render as the literal string
`"nan"`; this is `astype(str)` in `clean_data`. -/
def astypeStr : Cell → String
  | Cell.str s => s
  | Cell.num q => toString q
  | Cell.na => "nan"

/-- The four identifying text columns `clean_data` strips. -/
def textCols : List String := ["요일구분", "호선", "출발역", "상하구분"]

/-- Per-cell cleaning for one (already header-stripped) column: the four
text columns get `astype(str).str.strip()`, the `역번호` column gets
`pd.to_numeric(·, errors="coerce")`, all other columns pass through. -/
def cleanCell (h : String) (c : Cell) : Cell :=
  if h ∈ textCols then Cell.str (pyStrip (astypeStr c))
  else if h = "역번호" then
    match toNumericCell c with
    | some q => Cell.num q
    | none => Cell.na
  else c

/-- `data.py` `clean_data`: strip whitespace from the column headers, apply
`astype(str).str.strip()` to the identifying text columns, coerce `역번호`
to numeric with unparseable values becoming missing. -/
def clean_data (df : DataFrame) : DataFrame :=
  let hs := df.headers.map pyStrip
  { headers := hs
    rows := df.rows.map (fun row => (hs.zip row).map (fun p => cleanCell p.1 p.2)) }

/-- Column classification of `melt_to_long`: a time-slot column is a header
containing both the character `'시'` (hour) and `'분'` (minute). -/
def isTimeCol (h : String) : Bool := h.data.contains '시' && h.data.contains '분'

/-- `id_cols` of `melt_to_long`: the five identifying columns. -/
def id_cols : List String := ["요일구분", "호선", "역번호", "출발역", "상하구분"]

/-- A long-format row with time-slot type `τ` and congestion type `κ`; the
field names are the post-rename schema of `melt_to_long` (`요일구분` ↦
`day_type`, `호선` ↦ `line`, `역번호` ↦ `station_id`, `출발역` ↦
`station`, `상하구분` ↦ `direction`). -/
structure GRow (τ κ : Type) where
  day_type : Cell
  line : Cell
  station_id : Cell
  station : Cell
  direction : Cell
  time_slot : τ
  congestion : κ
deriving DecidableEq

/-- A row straight out of `df.melt`: the time slot is the raw header, the
congestion value is the raw cell. -/
abbrev MeltRow := GRow String Cell

/-- A row of the final long table: the time slot is a canonical label or
missing (the categorical conversion maps out-of-domain labels to `NaN`),
the congestion is a parsed number or missing. -/
abbrev LongRow := GRow (Option String) (Option Rat)

/-- Rewrite the time-slot field of a row. -/
def mapSlot (f : τ → τ2) (m : GRow τ κ) : GRow τ2 κ :=
  { day_type := m.day_type, line := m.line, station_id := m.station_id,
    station := m.station, direction := m.direction,
    time_slot := f m.time_slot, congestion := m.congestion }

/-- Rewrite the congestion field of a row. -/
def mapCongestion (f : κ → κ2) (m : GRow τ κ) : GRow τ κ2 :=
  { day_type := m.day_type, line := m.line, station_id := m.station_id,
    station := m.station, direction := m.direction,
    time_slot := m.time_slot, congestion := f m.congestion }

/-- One melted row: the identifying cells of `row`, the time-slot header
`tc`, and the observation cell under `tc`. -/
def meltRow (headers : List String) (row : List Cell) (tc : String) : MeltRow :=
  { day_type := rowCell headers row "요일구분"
    line := rowCell headers row "호선"
    station_id := rowCell headers row "역번호"
    station := rowCell headers row "출발역"
    direction := rowCell headers row "상하구분"
    time_slot := tc
    congestion := rowCell headers row tc }

/-- `pd.Categorical(·, categories=TIME_ORDER)` on one label: labels outside
the 39-label domain become missing. -/
def catSlot (s : String) : Option String :=
  if s ∈ TIME_ORDER then some s else none

/-- Code points of a string; Python (and pandas object-dtype) string
comparison is lexicographic on these. -/
def strCode (s : String) : List Nat := s.data.map Char.toNat

/-- Sort key of one identifying cell: strings by their code points; missing
values rank after every string (pandas `na_position="last"`). -/
def cellKey : Cell → List Nat
  | Cell.str s => 0 :: strCode s
  | Cell.num q => 0 :: strCode (toString q)
  | Cell.na => [1]

/-- Sort key of a time slot: its categorical code, missing last. -/
def slotRank : Option String → Nat
  | some s => timeRank s
  | none => TIME_ORDER.length

/-- The composite sort key of `df_long.sort_values(["line", "station",
"direction", "time_slot"])`: lexicographic on (line, station, direction,
time-slot rank). -/
def rowKey (r : LongRow) : List Nat ×ₗ (List Nat ×ₗ (List Nat ×ₗ Nat)) :=
  toLex (cellKey r.line, toLex (cellKey r.station, toLex (cellKey r.direction, slotRank r.time_slot)))

/-- The row ordering used to sort the final table. -/
def rowLe (a b : LongRow) : Prop := rowKey a ≤ rowKey b

instance : DecidableRel rowLe := fun a b => inferInstanceAs (Decidable (rowKey a ≤ rowKey b))

instance : IsTrans LongRow rowLe := ⟨fun _ _ _ hab hbc => le_trans hab hbc⟩

instance : IsTotal LongRow rowLe := ⟨fun a b => le_total (rowKey a) (rowKey b)⟩

/-- The schema-mismatch failure `melt_to_long` propagates: pandas `melt`
raises `KeyError` when requested `id_vars` are absent from the frame. -/
inductive MeltError where
  | missingIdColumns : List String → MeltError
deriving DecidableEq

/-- `data.py` `melt_to_long`: classify time-slot columns, melt them against
the five identifying columns (pandas stacks the melted output column by
column), normalize the time header, coerce congestion to numeric, drop rows
with missing congestion, convert `time_slot` to an ordered categorical over
`TIME_ORDER`, and sort by (line, station, direction, time_slot).  A missing
identifying column is the `KeyError` pandas `melt` raises; with no
time-slot column, `value_vars` is empty and the melt yields no rows. -/
def melt_to_long (df : DataFrame) : Except MeltError (List LongRow) :=
  let time_cols := df.headers.filter isTimeCol
  let missing := id_cols.filter (fun c => decide (c ∉ df.headers))
  if missing.isEmpty then
    let melted : List MeltRow :=
      time_cols.flatMap (fun tc => df.rows.map (fun row => meltRow df.headers row tc))
    let fmted := melted.map (mapSlot format_time_column)
    let coerced := fmted.map (mapCongestion toNumericCell)
    let dropped := coerced.filter (fun m => m.congestion.isSome)
    let catted : List LongRow := dropped.map (mapSlot catSlot)
    Except.ok (List.insertionSort rowLe catted)
  else Except.error (MeltError.missingIdColumns missing)

/-- The rows still present after the melt, normalize, coerce and drop
steps of `melt_to_long`, before the categorical conversion and the sort. -/
def droppedRows (df : DataFrame) : List (GRow String (Option Rat)) :=
  ((((df.headers.filter isTimeCol).flatMap
      (fun tc => df.rows.map (fun row => meltRow df.headers row tc))).map
        (mapSlot format_time_column)).map (mapCongestion toNumericCell)).filter
          (fun m => m.congestion.isSome)

instance {ε α : Type} [DecidableEq ε] [DecidableEq α] : DecidableEq (Except ε α) := fun x y =>
  match x, y with
  | Except.ok a, Except.ok b =>
    if h : a = b then Decidable.isTrue (congrArg Except.ok h)
    else Decidable.isFalse (fun he => h (Except.ok.inj he))
  | Except.error a, Except.error b =>
    if h : a = b then Decidable.isTrue (congrArg Except.error h)
    else Decidable.isFalse (fun he => h (Except.error.inj he))
  | Except.ok _, Except.error _ => Decidable.isFalse (fun he => Except.noConfusion he)
  | Except.error _, Except.ok _ => Decidable.isFalse (fun he => Except.noConfusion he)

/-- Outcome of one `pd.read_csv(csv_path, encoding=e)` attempt: a parsed
frame, a `UnicodeDecodeError`, or any other exception (message `m`). -/
inductive DecodeOutcome where
  | ok : DataFrame → DecodeOutcome
  | decodeError : DecodeOutcome
  | otherError : String → DecodeOutcome
deriving DecidableEq

/-- Failures `load_raw_data` propagates: the `ValueError` raised after all
encodings fail to decode, or a non-decode exception re-raised as is. -/
inductive LoadError where
  | noSupportedEncoding : LoadError
  | other : String → LoadError
deriving DecidableEq

/-- The encoding priority list of `load_raw_data`, in source order. -/
def ENCODINGS : List String := ["cp949", "euc-kr", "utf-8-sig", "utf-8"]

/-- The `for encoding in encodings` loop of `load_raw_data` over a list of
encodings still to try: a successful parse returns immediately, a
`UnicodeDecodeError` moves on to the next encoding, any other exception is
re-raised at once. -/
def loadLoop (readAttempt : String → DecodeOutcome) : List String → Except LoadError DataFrame
  | [] => Except.error LoadError.noSupportedEncoding
  | e :: rest =>
    match readAttempt e with
    | DecodeOutcome.ok df => Except.ok df
    | DecodeOutcome.decodeError => loadLoop readAttempt rest
    | DecodeOutcome.otherError m => Except.error (LoadError.other m)

/-- `data.py` `load_raw_data`, abstracted over the I/O behaviour
`readAttempt` of the file at each encoding. -/
def load_raw_data (readAttempt : String → DecodeOutcome) : Except LoadError DataFrame :=
  loadLoop readAttempt ENCODINGS

/-- Python `'호선' in x` on the character list: scan for the two-character
substring `호선`. -/
def hasHoseonAux : List Char → Bool
  | [] => false
  | '호' :: '선' :: _ => true
  | _ :: rest => hasHoseonAux rest

/-- Python `'호선' in x` (substring containment). -/
def hasHoseon (x : String) : Bool := hasHoseonAux x.data

/-- Python `x.replace("호선", "")` on the character list: drop every
(left-to-right, non-overlapping) occurrence of the two-character
substring. -/
def replaceHoseonAux : List Char → List Char
  | [] => []
  | '호' :: '선' :: rest => replaceHoseonAux rest
  | c :: rest => c :: replaceHoseonAux rest

/-- Python `x.replace("호선", "")`. -/
def replaceHoseon (x : String) : String := String.mk (replaceHoseonAux x.data)

/-- Python `int(s)` on a string: optional surrounding whitespace, optional
sign, then a nonempty digit run; anything else raises `ValueError`. -/
def pyInt (s : String) : Option Int :=
  match (pyStrip s).data with
  | '-' :: ds => if allDigits ds then some (-(digitsVal ds : Int)) else none
  | '+' :: ds => if allDigits ds then some (digitsVal ds : Int) else none
  | ds => if allDigits ds then some (digitsVal ds : Int) else none

/-- The exception `get_unique_values` can propagate: the `ValueError` from
`int(...)` inside the line sort key. -/
inductive PyError where
  | valueError : PyError
deriving DecidableEq

/-- The sort key `lambda x: int(x.replace('호선', '')) if '호선' in x else
999` of `get_unique_values`; fails when `int` raises. -/
def lineKey (x : String) : Except PyError Int :=
  if hasHoseon x then
    match pyInt (replaceHoseon x) with
    | some n => Except.ok n
    | none => Except.error PyError.valueError
  else Except.ok 999

/-- First-occurrence deduplication, tracking the values already seen. -/
def uniqueFirstAux (seen : List String) : List String → List String
  | [] => []
  | x :: xs =>
    if x ∈ seen then uniqueFirstAux seen xs
    else x :: uniqueFirstAux (x :: seen) xs

/-- First-occurrence deduplication: `pandas.Series.unique` keeps the order
in which distinct values first appear. -/
def uniqueFirst (l : List String) : List String := uniqueFirstAux [] l

/-- The non-missing string values of a named column, in row order
(`df[column].dropna()`). -/
def colVals (df : DataFrame) (column : String) : List String :=
  df.rows.filterMap (fun row =>
    match rowCell df.headers row column with
    | Cell.str s => some s
    | Cell.num q => some (toString q)
    | Cell.na => none)

/-- Decoration pass of Python `sorted(l, key=k)`: compute the key of every
element left to right, pairing it with the element; the first `ValueError`
aborts the whole call. -/
def decorate (k : String → Except PyError Int) : List String → Except PyError (List (Int × String))
  | [] => Except.ok []
  | x :: xs =>
    match k x with
    | Except.error e => Except.error e
    | Except.ok v =>
      match decorate k xs with
      | Except.error e => Except.error e
      | Except.ok ps => Except.ok ((v, x) :: ps)

/-- Comparison of decorated elements: by key only (Python `sorted` with a
`key=` argument never compares the elements themselves). -/
def pairLe (p q : Int × String) : Prop := p.1 ≤ q.1

instance : DecidableRel pairLe := fun p q => inferInstanceAs (Decidable (p.1 ≤ q.1))

instance : IsTrans (Int × String) pairLe := ⟨fun _ _ _ => le_trans⟩

instance : IsTotal (Int × String) pairLe := ⟨fun p q => le_total p.1 q.1⟩

/-- Python `sorted(l, key=k)`: compute every key (any `ValueError`
propagates), then sort the decorated list stably by key. -/
def sortedByKey (k : String → Except PyError Int) (l : List String) : Except PyError (List String) :=
  match decorate k l with
  | Except.error e => Except.error e
  | Except.ok pairs => Except.ok ((List.insertionSort pairLe pairs).map Prod.snd)

/-- String comparison as Python orders `sorted(...)` output: lexicographic
on code points. -/
def strLe (a b : String) : Prop := (strCode a : List Nat) ≤ strCode b

instance : DecidableRel strLe := fun a b => inferInstanceAs (Decidable (strCode a ≤ strCode b))

instance : IsTrans String strLe := ⟨fun _ _ _ hab hbc => le_trans hab hbc⟩

instance : IsTotal String strLe := ⟨fun a b => le_total (strCode a) (strCode b)⟩

/-- `data.py` `get_unique_values`: `[]` for an absent column; otherwise the
distinct non-missing values, sorted by the embedded line number for the
`line` column (labels without `호선` get key 999) and lexicographically for
every other column. -/
def get_unique_values (df : DataFrame) (column : String) : Except PyError (List String) :=
  if column ∈ df.headers then
    if column = "line" then sortedByKey lineKey (uniqueFirst (colVals df column))
    else Except.ok (List.insertionSort strLe (uniqueFirst (colVals df column)))
  else Except.ok []

/-- The filter configuration dictionary built by `render_filters`, as an
explicit structure: an absent key is `none` / the empty list. -/
structure Filters where
  day_type : Option String
  lines : List String
  stations : List String
  directions : List String
  time_range : Option (String × String)
  congestion_range : Option (Int × Int)
deriving DecidableEq

/-- Scalar comparison `series == value` on one cell: equal strings compare
true; a number or a missing value never equals a string. -/
def cellEqStr : Cell → String → Bool
  | Cell.str s, d => s == d
  | Cell.num _, _ => false
  | Cell.na, _ => false

/-- `series.isin(values)` on one cell. -/
def cellIn (c : Cell) (l : List String) : Bool := l.any (fun s => cellEqStr c s)

/-- Categorical `time_slot >= bound`: comparison of categorical ranks, a
missing slot compares false. -/
def slotGe (t : Option String) (bound : String) : Bool :=
  match t with
  | some s => timeRank bound ≤ timeRank s
  | none => false

/-- Categorical `time_slot <= bound`: comparison of categorical ranks, a
missing slot compares false. -/
def slotLe (t : Option String) (bound : String) : Bool :=
  match t with
  | some s => timeRank s ≤ timeRank bound
  | none => false

/-- `congestion >= mn & congestion <= mx` on one cell; a missing value
compares false on both sides. -/
def congBetween (c : Option Rat) (mn mx : Int) : Bool :=
  match c with
  | some q => decide ((mn : Rat) ≤ q) && decide (q ≤ (mx : Rat))
  | none => false

/-- The `if filters.get('day_type'):` step of `filter_data`: keep the rows
whose day-type cell equals the selected label; a falsy guard (`None` or the
empty string) skips the mask. -/
def dayStage (o : Option String) (l : List LongRow) : List LongRow :=
  match o with
  | some d => if d = "" then l else l.filter (fun r => cellEqStr r.day_type d)
  | none => l

/-- One `isin` step of `filter_data` on the cell selected by `get`; an
empty selection list is falsy and skips the mask. -/
def isinStage (get : LongRow → Cell) (sel : List String) (l : List LongRow) : List LongRow :=
  if sel.isEmpty then l else l.filter (fun r => cellIn (get r) sel)

/-- The time-range step of `filter_data`: categorical-rank comparison
against both bounds; an absent range skips the mask. -/
def timeStage (o : Option (String × String)) (l : List LongRow) : List LongRow :=
  match o with
  | some p => l.filter (fun r => slotGe r.time_slot p.1 && slotLe r.time_slot p.2)
  | none => l

/-- The congestion-range step of `filter_data`; an absent range skips the
mask. -/
def congStage (o : Option (Int × Int)) (l : List LongRow) : List LongRow :=
  match o with
  | some p => l.filter (fun r => congBetween r.congestion p.1 p.2)
  | none => l

/-- `ui.py` `filter_data`: apply, in order, the day-type equality filter,
the line / station / direction `isin` filters, the categorical time-range
filter and the congestion-range filter; a guard that is falsy in Python
(`None`, empty string, empty list) skips its filter. -/
def filter_data (rows : List LongRow) (filters : Filters) : List LongRow :=
  congStage filters.congestion_range
    (timeStage filters.time_range
      (isinStage (fun r => r.direction) filters.directions
        (isinStage (fun r => r.station) filters.stations
          (isinStage (fun r => r.line) filters.lines
            (dayStage filters.day_type rows)))))

/-- The day-type constraint as a single row predicate (`true` when the
guard is falsy). -/
def dayGuard : Option String → LongRow → Bool
  | some d => if d = "" then fun _ => true else fun r => cellEqStr r.day_type d
  | none => fun _ => true

/-- An `isin` constraint on one cell as a single row predicate (`true`
when the selection list is empty). -/
def listGuard (get : LongRow → Cell) (l : List String) : LongRow → Bool :=
  if l.isEmpty then fun _ => true else fun r => cellIn (get r) l

/-- The time-range constraint as a single row predicate. -/
def timeGuard : Option (String × String) → LongRow → Bool
  | some p => fun r => slotGe r.time_slot p.1 && slotLe r.time_slot p.2
  | none => fun _ => true

/-- The congestion-range constraint as a single row predicate. -/
def congGuard : Option (Int × Int) → LongRow → Bool
  | some p => fun r => congBetween r.congestion p.1 p.2
  | none => fun _ => true

/-- The conjunction of all six filter constraints. -/
def filterPred (f : Filters) (r : LongRow) : Bool :=
  congGuard f.congestion_range r &&
    (timeGuard f.time_range r &&
      (listGuard (fun x => x.direction) f.directions r &&
        (listGuard (fun x => x.station) f.stations r &&
          (listGuard (fun x => x.line) f.lines r && dayGuard f.day_type r))))

/-- A one-row wide table whose 05:30 cell is the unparseable string
`"N/A"` and whose 06:00 cell is `"0"`. -/
def dfScenarioNA : DataFrame :=
  { headers := ["요일구분", "호선", "역번호", "출발역", "상하구분", "5시30분", "6시00분"]
    rows := [[Cell.str "평일", Cell.str "2호선", Cell.str "222", Cell.str "강남", Cell.str "상선",
      Cell.str "N/A", Cell.str "0"]] }

/-- The single long row the pipeline keeps from `dfScenarioNA`: only the
06:00 observation survives, with congestion 0. -/
def rowScenarioNA : LongRow :=
  { day_type := Cell.str "평일", line := Cell.str "2호선", station_id := Cell.str "222",
    station := Cell.str "강남", direction := Cell.str "상선",
    time_slot := some "06:00", congestion := some 0 }

/-- A one-row wide table whose time columns are 00:30 and 23:30, in that
header order; string-sorting `time_slot` would put 00:30 first. -/
def dfWrap : DataFrame :=
  { headers := ["요일구분", "호선", "역번호", "출발역", "상하구분", "0시30분", "23시30분"]
    rows := [[Cell.str "평일", Cell.str "2호선", Cell.str "222", Cell.str "강남", Cell.str "상선",
      Cell.str "120", Cell.str "34"]] }

/-- The 23:30 long row from `dfWrap` (canonical rank 36). -/
def rowWrap2330 : LongRow :=
  { day_type := Cell.str "평일", line := Cell.str "2호선", station_id := Cell.str "222",
    station := Cell.str "강남", direction := Cell.str "상선",
    time_slot := some "23:30", congestion := some 34 }

/-- The 00:30 long row from `dfWrap` (canonical rank 38, last). -/
def rowWrap0030 : LongRow :=
  { day_type := Cell.str "평일", line := Cell.str "2호선", station_id := Cell.str "222",
    station := Cell.str "강남", direction := Cell.str "상선",
    time_slot := some "00:30", congestion := some 120 }

/-- A one-row wide table with a canonical 05:30 column and a time-slot
header `99시99분` whose normalized label `99:99` is outside the canonical
domain. -/
def dfOdd : DataFrame :=
  { headers := ["요일구분", "호선", "역번호", "출발역", "상하구분", "5시30분", "99시99분"]
    rows := [[Cell.str "평일", Cell.str "2호선", Cell.str "222", Cell.str "강남", Cell.str "상선",
      Cell.str "40", Cell.str "50"]] }

/-- The 05:30 long row from `dfOdd`. -/
def rowOdd0530 : LongRow :=
  { day_type := Cell.str "평일", line := Cell.str "2호선", station_id := Cell.str "222",
    station := Cell.str "강남", direction := Cell.str "상선",
    time_slot := some "05:30", congestion := some 40 }

/-- The `99시99분` long row from `dfOdd`: the out-of-domain label became
missing, and the row sorts last. -/
def rowOddNone : LongRow :=
  { day_type := Cell.str "평일", line := Cell.str "2호선", station_id := Cell.str "222",
    station := Cell.str "강남", direction := Cell.str "상선",
    time_slot := none, congestion := some 50 }

/-- A table with all five identifying columns but no time-slot column. -/
def dfNoTimeCols : DataFrame :=
  { headers := ["요일구분", "호선", "역번호", "출발역", "상하구분"]
    rows := [[Cell.str "평일", Cell.str "2호선", Cell.str "222", Cell.str "강남", Cell.str "상선"]] }

/-- A second table with every identifying column but no time-slot column,
used to exercise the no-time-columns branch. -/
def dfOnlyIds : DataFrame :=
  { headers := ["요일구분", "호선", "역번호", "출발역", "상하구분", "합계"]
    rows := [[Cell.str "평일", Cell.str "2호선", Cell.str "222", Cell.str "강남", Cell.str "상선",
      Cell.str "999"]] }

/-- A table missing four of the five identifying columns. -/
def dfMissingIds : DataFrame :=
  { headers := ["호선", "5시30분"]
    rows := [[Cell.str "2호선", Cell.str "10"]] }

/-- A one-column table whose `line` values are 10호선, 2호선, 1호선 in
first-occurrence order. -/
def dfLines : DataFrame :=
  { headers := ["line"]
    rows := [[Cell.str "10호선"], [Cell.str "2호선"], [Cell.str "1호선"]] }

/-- A one-column table with the line label `A호선`, whose sort key
`int("A")` raises `ValueError`. -/
def dfBadLine : DataFrame :=
  { headers := ["line"]
    rows := [[Cell.str "A호선"]] }

/-- A wide table whose `호선` cell is missing. -/
def dfNaLine : DataFrame :=
  { headers := ["요일구분", "호선", "역번호", "출발역", "상하구분", "5시30분"]
    rows := [[Cell.str "평일", Cell.na, Cell.str "222", Cell.str "강남", Cell.str "상선",
      Cell.str "30"]] }

/-- The pipeline output row for `dfNaLine`: the missing line label has
become the literal string `"nan"`. -/
def rowNaLine : LongRow :=
  { day_type := Cell.str "평일", line := Cell.str "nan", station_id := Cell.num 222,
    station := Cell.str "강남", direction := Cell.str "상선",
    time_slot := some "05:30", congestion := some 30 }

/-- A sample filter configuration with every constraint present. -/
def fSample : Filters :=
  { day_type := some "평일", lines := ["2호선"], stations := [], directions := ["상선"],
    time_range := some ("05:30", "09:00"), congestion_range := some (0, 200) }

/-- An I/O behaviour where every encoding attempt hits a decode error. -/
def readAllFail : String → DecodeOutcome := fun _ => DecodeOutcome.decodeError

/-- An I/O behaviour where the first two encodings fail to decode and the
third parses an empty frame. -/
def readThird : String → DecodeOutcome := fun e =>
  if e = "utf-8-sig" then DecodeOutcome.ok { headers := [], rows := [] }
  else DecodeOutcome.decodeError

/-! ## Helper lemmas -/

lemma allDigits_iff {ds : List Char} :
    allDigits ds = true ↔ ds ≠ [] ∧ ∀ c ∈ ds, c.isDigit = true := by
  simp [allDigits, List.isEmpty_iff, List.all_eq_true]

lemma takeDigits_append (ds r : List Char) (hds : ∀ c ∈ ds, c.isDigit = true)
    (hr : ∀ c cs, r = c :: cs → c.isDigit = false) : takeDigits (ds ++ r) = (ds, r) := by
  induction ds with
  | nil =>
    cases r with
    | nil => rfl
    | cons c cs => simp [takeDigits, hr c cs rfl]
  | cons d ds ih =>
    have hd : d.isDigit = true := hds d (by simp)
    have := ih (fun c hc => hds c (by simp [hc]))
    simp [takeDigits, hd, this]

lemma matchTimeAt_pattern (ds ms : List Char) (hds : allDigits ds = true)
    (hms : allDigits ms = true) :
    matchTimeAt (ds ++ '시' :: (ms ++ ['분'])) = some (digitsVal ds, digitsVal ms) := by
  obtain ⟨hdne, hdall⟩ := allDigits_iff.mp hds
  obtain ⟨hmne, hmall⟩ := allDigits_iff.mp hms
  have h1 : takeDigits (ds ++ '시' :: (ms ++ ['분'])) = (ds, '시' :: (ms ++ ['분'])) :=
    takeDigits_append ds _ hdall (by
      intro c cs h
      have hc : c = '시' := (List.cons.inj h).1.symm
      subst hc; decide)
  have h2 : takeDigits (ms ++ ['분']) = (ms, ['분']) :=
    takeDigits_append ms _ hmall (by
      intro c cs h
      have hc : c = '분' := (List.cons.inj h).1.symm
      subst hc; decide)
  unfold matchTimeAt
  rw [h1]
  simp only [List.isEmpty_iff, hdne, if_neg hdne]
  rw [h2]
  simp [List.isEmpty_iff, hmne]

lemma findTimeMatch_pattern (ds ms : List Char) (hds : allDigits ds = true)
    (hms : allDigits ms = true) :
    findTimeMatch (ds ++ '시' :: (ms ++ ['분'])) = some (digitsVal ds, digitsVal ms) := by
  obtain ⟨hdne, _⟩ := allDigits_iff.mp hds
  cases ds with
  | nil => exact absurd rfl hdne
  | cons d ds2 =>
    have hm := matchTimeAt_pattern (d :: ds2) ms hds hms
    rw [List.cons_append]
    unfold findTimeMatch
    rw [← List.cons_append, hm]

lemma sorted_insertionSortRows (l : List LongRow) :
    List.Sorted rowLe (List.insertionSort rowLe l) :=
  List.sorted_insertionSort rowLe l

lemma mem_insertionSortRows {r : LongRow} {l : List LongRow} :
    r ∈ List.insertionSort rowLe l ↔ r ∈ l :=
  (List.perm_insertionSort rowLe l).mem_iff

lemma melt_to_long_ok {df : DataFrame} {rows : List LongRow}
    (h : melt_to_long df = Except.ok rows) :
    rows = List.insertionSort rowLe ((droppedRows df).map (mapSlot catSlot)) := by
  simp only [melt_to_long, droppedRows] at h ⊢
  split at h
  · exact (Except.ok.inj h).symm
  · exact Except.noConfusion h

/-! ## Claim theorems -/

/-- C1: over the 39 canonical labels, the `time_slot` ordering the pipeline
attaches is position in the fixed sequence, not string comparison: in
particular "00:30" compares greater than "23:30" (although its code points
compare smaller), and "05:30" is the minimum element. -/
theorem spec_C1_time_order :
    (∀ a ∈ TIME_ORDER, ∀ b ∈ TIME_ORDER,
      time_slot_lt a b = true ↔ TIME_ORDER.indexOf a < TIME_ORDER.indexOf b)
    ∧ time_slot_lt "23:30" "00:30" = true
    ∧ time_slot_lt "00:30" "23:30" = false
    ∧ strCode "00:30" < strCode "23:30"
    ∧ (∀ t ∈ TIME_ORDER, time_slot_lt t "05:30" = false) := by
  refine ⟨?_, by decide, by decide, by decide, by decide⟩
  intro a _ b _
  simp [time_slot_lt, timeRank]

/-- Closed instance of `spec_C1_time_order`: "05:30" is not preceded by the
last canonical label. -/
theorem spec_C1_witness : time_slot_lt "00:30" "05:30" = false :=
  spec_C1_time_order.2.2.2.2 "00:30" (by decide)

/-- C2: a header that is a digit run, the hour character, a digit run and
the minute character normalizes to the zero-padded `HH:MM` form (in
particular "5시30분" ↦ "05:30" and "08시00분" ↦ "08:00"), and a header the
pattern does not match (for example "합계") is returned unchanged. -/
theorem spec_C2_format_time :
    (∀ ds ms : List Char, allDigits ds = true → allDigits ms = true →
      format_time_column ⟨ds ++ '시' :: (ms ++ ['분'])⟩ =
        pad2 (digitsVal ds) ++ ":" ++ pad2 (digitsVal ms))
    ∧ format_time_column "5시30분" = "05:30"
    ∧ format_time_column "08시00분" = "08:00"
    ∧ format_time_column "합계" = "합계"
    ∧ (∀ s : String, findTimeMatch s.data = none → format_time_column s = s) := by
  refine ⟨?_, by decide, by decide, by decide, ?_⟩
  · intro ds ms hds hms
    unfold format_time_column
    rw [show (String.mk (ds ++ '시' :: (ms ++ ['분']))).data = ds ++ '시' :: (ms ++ ['분']) from rfl]
    rw [findTimeMatch_pattern ds ms hds hms]
  · intro s h
    unfold format_time_column
    rw [h]

/-- Closed instance of `spec_C2_format_time`: the pattern branch evaluated
at the header "08시00분". -/
theorem spec_C2_witness :
    format_time_column ⟨['0', '8'] ++ '시' :: (['0', '0'] ++ ['분'])⟩ =
      pad2 (digitsVal ['0', '8']) ++ ":" ++ pad2 (digitsVal ['0', '0']) :=
  spec_C2_format_time.1 ['0', '8'] ['0', '0'] (by decide) (by decide)

/-- C3: every row of the reshaped output has a present congestion value;
the `"N/A"` cell of `dfScenarioNA` produces no row at all, while its `"0"`
cell is retained with congestion 0. -/
theorem spec_C3_no_missing_congestion :
    (∀ (df : DataFrame) (rows : List LongRow), melt_to_long df = Except.ok rows →
      ∀ r ∈ rows, r.congestion.isSome = true)
    ∧ melt_to_long dfScenarioNA = Except.ok [rowScenarioNA] := by
  refine ⟨?_, by decide⟩
  intro df rows h r hr
  rw [melt_to_long_ok h, mem_insertionSortRows] at hr
  obtain ⟨m, hm, rfl⟩ := List.mem_map.mp hr
  simpa [mapSlot] using (List.mem_filter.mp hm).2

/-- Closed instance of `spec_C3_no_missing_congestion` at `dfScenarioNA`. -/
theorem spec_C3_witness : rowScenarioNA.congestion.isSome = true :=
  spec_C3_no_missing_congestion.1 dfScenarioNA [rowScenarioNA] (by decide)
    rowScenarioNA (by decide)

/-- C4: the reshaped output is sorted ascending by (line, station,
direction, time_slot) with `time_slot` compared by canonical rank; on
`dfWrap` the 23:30 row precedes the 00:30 row even though the melt emitted
00:30 first and string order would also put 00:30 first. -/
theorem spec_C4_sorted :
    (∀ (df : DataFrame) (rows : List LongRow), melt_to_long df = Except.ok rows →
      List.Sorted rowLe rows)
    ∧ melt_to_long dfWrap = Except.ok [rowWrap2330, rowWrap0030] := by
  refine ⟨?_, by decide⟩
  intro df rows h
  rw [melt_to_long_ok h]
  exact sorted_insertionSortRows _

/-- Closed instance of `spec_C4_sorted` at `dfWrap`. -/
theorem spec_C4_witness : List.Sorted rowLe [rowWrap2330, rowWrap0030] :=
  spec_C4_sorted.1 dfWrap [rowWrap2330, rowWrap0030] (by decide)

/-- C5: every non-missing `time_slot` in the reshaped output is one of the
39 canonical labels; the out-of-domain header of `dfOdd` yields a row whose
`time_slot` is missing, not a 40th label. -/
theorem spec_C5_domain :
    (∀ (df : DataFrame) (rows : List LongRow), melt_to_long df = Except.ok rows →
      ∀ r ∈ rows, ∀ lbl, r.time_slot = some lbl → lbl ∈ TIME_ORDER)
    ∧ melt_to_long dfOdd = Except.ok [rowOdd0530, rowOddNone] := by
  refine ⟨?_, by decide⟩
  intro df rows h r hr lbl hlbl
  rw [melt_to_long_ok h, mem_insertionSortRows] at hr
  obtain ⟨m, _, rfl⟩ := List.mem_map.mp hr
  simp only [mapSlot] at hlbl
  by_cases hmem : m.time_slot ∈ TIME_ORDER
  · simp [catSlot, hmem] at hlbl
    exact hlbl ▸ hmem
  · simp [catSlot, hmem] at hlbl

/-- Closed instance of `spec_C5_domain` at `dfOdd`. -/
theorem spec_C5_witness : "05:30" ∈ TIME_ORDER :=
  spec_C5_domain.1 dfOdd [rowOdd0530, rowOddNone] (by decide)
    rowOdd0530 (by decide) "05:30" rfl

/-- Counterexample to C6: a table with every identifying column but no
time-slot column does not make `melt_to_long` propagate an error — the
melt has an empty `value_vars` and the result is an empty row list. -/
theorem spec_C6_counterexample : melt_to_long dfNoTimeCols = Except.ok [] := by decide

/-- C6 (amended): a table missing identifying columns makes the reshape
propagate the schema-mismatch error naming the missing columns, and this
is the only failure it propagates — in particular a table with all five
identifying columns but no time-slot column reshapes successfully (to an
empty table). -/
theorem spec_C6_schema_errors :
    (∀ df : DataFrame, (∃ c ∈ id_cols, c ∉ df.headers) →
      ∃ missing, missing ≠ [] ∧
        melt_to_long df = Except.error (MeltError.missingIdColumns missing))
    ∧ (∀ df : DataFrame, (∀ c ∈ id_cols, c ∈ df.headers) →
      ∃ rows, melt_to_long df = Except.ok rows) := by
  constructor
  · rintro df ⟨c, hc, hnc⟩
    have hmem : c ∈ id_cols.filter (fun c => decide (c ∉ df.headers)) :=
      List.mem_filter.mpr ⟨hc, by simpa using hnc⟩
    have hne : id_cols.filter (fun c => decide (c ∉ df.headers)) ≠ [] := by
      intro hnil
      rw [hnil] at hmem
      exact absurd hmem (List.not_mem_nil c)
    refine ⟨id_cols.filter (fun c => decide (c ∉ df.headers)), hne, ?_⟩
    simp only [melt_to_long]
    simp [List.isEmpty_iff, hne]
    exact ⟨c, hc, hnc⟩
  · intro df hall
    have hmt : id_cols.filter (fun c => decide (c ∉ df.headers)) = [] :=
      List.filter_eq_nil_iff.mpr (fun c hc => by simpa using hall c hc)
    refine ⟨List.insertionSort rowLe ((droppedRows df).map (mapSlot catSlot)), ?_⟩
    simp only [melt_to_long, droppedRows]
    simp [hmt]
    exact hall

/-- Closed instance of `spec_C6_schema_errors`: the error branch at
`dfMissingIds` and the success branch at the time-column-free
`dfOnlyIds`. -/
theorem spec_C6_witness :
    (∃ missing, missing ≠ [] ∧
      melt_to_long dfMissingIds = Except.error (MeltError.missingIdColumns missing))
    ∧ (∃ rows, melt_to_long dfOnlyIds = Except.ok rows) :=
  ⟨spec_C6_schema_errors.1 dfMissingIds ⟨"요일구분", by decide, by decide⟩,
   spec_C6_schema_errors.2 dfOnlyIds (by decide)⟩

lemma loadLoop_noSupported_iff (f : String → DecodeOutcome) (L : List String) :
    loadLoop f L = Except.error LoadError.noSupportedEncoding ↔
      ∀ e ∈ L, f e = DecodeOutcome.decodeError := by
  induction L with
  | nil => simp [loadLoop]
  | cons e rest ih =>
    cases h : f e with
    | ok df => simp [loadLoop, h]
    | decodeError => simp [loadLoop, h, ih]
    | otherError m => simp [loadLoop, h]

lemma loadLoop_ok_iff (f : String → DecodeOutcome) (L : List String) (df : DataFrame) :
    loadLoop f L = Except.ok df ↔
      ∃ pre e post, L = pre ++ e :: post ∧ f e = DecodeOutcome.ok df ∧
        ∀ e2 ∈ pre, f e2 = DecodeOutcome.decodeError := by
  induction L with
  | nil =>
    simp only [loadLoop]
    constructor
    · intro h; exact Except.noConfusion h
    · rintro ⟨pre, e, post, h, -, -⟩
      exact absurd h.symm (List.append_ne_nil_of_right_ne_nil pre (List.cons_ne_nil e post))
  | cons a rest ih =>
    cases h : f a with
    | ok d =>
      simp only [loadLoop, h]
      constructor
      · intro hok
        exact ⟨[], a, rest, rfl, by rw [h, Except.ok.inj hok], by simp⟩
      · rintro ⟨pre, e, post, heq, hfe, hpre⟩
        cases pre with
        | nil =>
          obtain ⟨rfl, -⟩ := List.cons.inj heq
          rw [h] at hfe
          rw [DecodeOutcome.ok.inj hfe]
        | cons p pre2 =>
          obtain ⟨rfl, -⟩ := List.cons.inj heq
          have := hpre a (by simp)
          rw [h] at this
          exact DecodeOutcome.noConfusion this
    | decodeError =>
      simp only [loadLoop, h, ih]
      constructor
      · rintro ⟨pre, e, post, heq, hfe, hpre⟩
        refine ⟨a :: pre, e, post, by rw [heq, List.cons_append], hfe, ?_⟩
        intro e2 he2
        rcases List.mem_cons.mp he2 with rfl | hmem
        · exact h
        · exact hpre e2 hmem
      · rintro ⟨pre, e, post, heq, hfe, hpre⟩
        cases pre with
        | nil =>
          obtain ⟨rfl, -⟩ := List.cons.inj heq
          rw [h] at hfe
          exact DecodeOutcome.noConfusion hfe
        | cons p pre2 =>
          obtain ⟨rfl, hrest⟩ := List.cons.inj heq
          exact ⟨pre2, e, post, hrest, hfe, fun e2 he2 => hpre e2 (List.mem_cons_of_mem _ he2)⟩
    | otherError m =>
      simp only [loadLoop, h]
      constructor
      · intro hok; exact Except.noConfusion hok
      · rintro ⟨pre, e, post, heq, hfe, hpre⟩
        cases pre with
        | nil =>
          obtain ⟨rfl, -⟩ := List.cons.inj heq
          rw [h] at hfe
          exact DecodeOutcome.noConfusion hfe
        | cons p pre2 =>
          obtain ⟨rfl, -⟩ := List.cons.inj heq
          have := hpre a (by simp)
          rw [h] at this
          exact DecodeOutcome.noConfusion this

lemma loadLoop_other_iff (f : String → DecodeOutcome) (L : List String) (m : String) :
    loadLoop f L = Except.error (LoadError.other m) ↔
      ∃ pre e post, L = pre ++ e :: post ∧ f e = DecodeOutcome.otherError m ∧
        ∀ e2 ∈ pre, f e2 = DecodeOutcome.decodeError := by
  induction L with
  | nil =>
    simp only [loadLoop]
    constructor
    · intro h
      exact LoadError.noConfusion (Except.error.inj h)
    · rintro ⟨pre, e, post, h, -, -⟩
      exact absurd h.symm (List.append_ne_nil_of_right_ne_nil pre (List.cons_ne_nil e post))
  | cons a rest ih =>
    cases h : f a with
    | ok d =>
      simp only [loadLoop, h]
      constructor
      · intro hok; exact Except.noConfusion hok
      · rintro ⟨pre, e, post, heq, hfe, hpre⟩
        cases pre with
        | nil =>
          obtain ⟨rfl, -⟩ := List.cons.inj heq
          rw [h] at hfe
          exact DecodeOutcome.noConfusion hfe
        | cons p pre2 =>
          obtain ⟨rfl, -⟩ := List.cons.inj heq
          have := hpre a (by simp)
          rw [h] at this
          exact DecodeOutcome.noConfusion this
    | decodeError =>
      simp only [loadLoop, h, ih]
      constructor
      · rintro ⟨pre, e, post, heq, hfe, hpre⟩
        refine ⟨a :: pre, e, post, by rw [heq, List.cons_append], hfe, ?_⟩
        intro e2 he2
        rcases List.mem_cons.mp he2 with rfl | hmem
        · exact h
        · exact hpre e2 hmem
      · rintro ⟨pre, e, post, heq, hfe, hpre⟩
        cases pre with
        | nil =>
          obtain ⟨rfl, -⟩ := List.cons.inj heq
          rw [h] at hfe
          exact DecodeOutcome.noConfusion hfe
        | cons p pre2 =>
          obtain ⟨rfl, hrest⟩ := List.cons.inj heq
          exact ⟨pre2, e, post, hrest, hfe, fun e2 he2 => hpre e2 (List.mem_cons_of_mem _ he2)⟩
    | otherError m2 =>
      simp only [loadLoop, h]
      constructor
      · intro herr
        have hm : m2 = m := LoadError.other.inj (Except.error.inj herr)
        exact ⟨[], a, rest, rfl, by rw [h, hm], by simp⟩
      · rintro ⟨pre, e, post, heq, hfe, hpre⟩
        cases pre with
        | nil =>
          obtain ⟨rfl, -⟩ := List.cons.inj heq
          rw [h] at hfe
          rw [DecodeOutcome.otherError.inj hfe]
        | cons p pre2 =>
          obtain ⟨rfl, -⟩ := List.cons.inj heq
          have := hpre a (by simp)
          rw [h] at this
          exact DecodeOutcome.noConfusion this

/-- C7: the loader tries exactly the four encodings cp949, euc-kr,
utf-8-sig, utf-8 in that priority order; it returns the first successful
parse (all earlier attempts having failed to decode), raises the
no-supported-encoding error if and only if all four attempts hit decode
errors, and propagates any other error as soon as it occurs, all earlier
attempts having been decode failures and no later encoding being tried. -/
theorem spec_C7_encodings :
    ENCODINGS = ["cp949", "euc-kr", "utf-8-sig", "utf-8"]
    ∧ (∀ f, load_raw_data f = Except.error LoadError.noSupportedEncoding ↔
      ∀ e ∈ ENCODINGS, f e = DecodeOutcome.decodeError)
    ∧ (∀ f df, load_raw_data f = Except.ok df ↔
      ∃ pre e post, ENCODINGS = pre ++ e :: post ∧ f e = DecodeOutcome.ok df ∧
        ∀ e2 ∈ pre, f e2 = DecodeOutcome.decodeError)
    ∧ (∀ f m, load_raw_data f = Except.error (LoadError.other m) ↔
      ∃ pre e post, ENCODINGS = pre ++ e :: post ∧ f e = DecodeOutcome.otherError m ∧
        ∀ e2 ∈ pre, f e2 = DecodeOutcome.decodeError) :=
  ⟨rfl,
   fun f => loadLoop_noSupported_iff f ENCODINGS,
   fun f df => loadLoop_ok_iff f ENCODINGS df,
   fun f m => loadLoop_other_iff f ENCODINGS m⟩

/-- Closed instance of `spec_C7_encodings`: all-decode-failure behaviour
raises the no-supported-encoding error, and a third-encoding success is
returned with the first two attempts having been decode failures. -/
theorem spec_C7_witness :
    load_raw_data readAllFail = Except.error LoadError.noSupportedEncoding
    ∧ load_raw_data readThird = Except.ok { headers := [], rows := [] } :=
  ⟨(spec_C7_encodings.2.1 readAllFail).mpr (by decide),
   (spec_C7_encodings.2.2.1 readThird { headers := [], rows := [] }).mpr
     ⟨["cp949", "euc-kr"], "utf-8-sig", ["utf-8"], by decide, by decide, by decide⟩⟩

lemma decorate_ok {k : String → Except PyError Int} :
    ∀ {l : List String} {ps : List (Int × String)}, decorate k l = Except.ok ps →
      ps.map Prod.snd = l ∧ ∀ p ∈ ps, k p.2 = Except.ok p.1 := by
  intro l
  induction l with
  | nil =>
    intro ps h
    obtain rfl := (Except.ok.inj h).symm
    exact ⟨rfl, by simp⟩
  | cons x xs ih =>
    intro ps h
    simp only [decorate] at h
    cases hk : k x with
    | error e => rw [hk] at h; exact Except.noConfusion h
    | ok v =>
      rw [hk] at h
      cases hd : decorate k xs with
      | error e => rw [hd] at h; exact Except.noConfusion h
      | ok qs =>
        rw [hd] at h
        obtain rfl := (Except.ok.inj h).symm
        obtain ⟨hmap, hks⟩ := ih hd
        refine ⟨by simp [hmap], ?_⟩
        intro p hp
        rcases List.mem_cons.mp hp with rfl | hmem
        · exact hk
        · exact hks p hmem

lemma rowCell_not_mem {headers : List String} {row : List Cell} {c : String}
    (h : c ∉ headers) : rowCell headers row c = Cell.na := by
  have hnone : headers.indexOf? c = none := by
    rw [List.indexOf?_eq_none_iff]
    intro x hx hbeq
    exact h ((by simpa using hbeq : x = c) ▸ hx)
  unfold rowCell
  rw [hnone]

lemma colVals_not_mem {df : DataFrame} {column : String} (h : column ∉ df.headers) :
    colVals df column = [] := by
  unfold colVals
  rw [List.filterMap_eq_nil_iff]
  intro row _
  rw [rowCell_not_mem h]

/-- Counterexample to C8: on a `line` column holding the label `A호선`
(which contains `호선` with a non-numeric remainder) the function raises
`ValueError` from `int("A")` instead of returning the label, so not every
non-numeric line label "sorts last". -/
theorem spec_C8_counterexample :
    get_unique_values dfBadLine "line" = Except.error PyError.valueError := by decide

/-- C8 (amended): when it returns, `get_unique_values` returns exactly the
distinct non-missing values of the column — ordered by the embedded line
number for the `line` column (labels without the substring `호선` get key
999 and thus sort after every real line; a label whose remainder after
dropping `호선` is not an integer raises `ValueError` instead of sorting
last) and ordered lexicographically for every other column; on line values
10호선, 2호선, 1호선 it returns 1호선, 2호선, 10호선. -/
theorem spec_C8_unique_values :
    (∀ (df : DataFrame) (column : String) (l : List String),
      get_unique_values df column = Except.ok l →
        l.Perm (uniqueFirst (colVals df column)))
    ∧ (∀ (df : DataFrame) (l : List String),
      get_unique_values df "line" = Except.ok l →
        l.Pairwise (fun a b => ∀ ka kb,
          lineKey a = Except.ok ka → lineKey b = Except.ok kb → ka ≤ kb))
    ∧ (∀ (df : DataFrame) (column : String) (l : List String), column ≠ "line" →
      get_unique_values df column = Except.ok l → l.Pairwise strLe)
    ∧ get_unique_values dfLines "line" = Except.ok ["1호선", "2호선", "10호선"] := by
  refine ⟨?_, ?_, ?_, by decide⟩
  · intro df column l h
    unfold get_unique_values at h
    by_cases hmem : column ∈ df.headers
    · rw [if_pos hmem] at h
      by_cases hline : column = "line"
      · rw [if_pos hline] at h
        unfold sortedByKey at h
        cases hd : decorate lineKey (uniqueFirst (colVals df column)) with
        | error e => rw [hd] at h; exact Except.noConfusion h
        | ok ps =>
          rw [hd] at h
          obtain rfl := (Except.ok.inj h).symm
          have hmap := (decorate_ok hd).1
          have hp : ((List.insertionSort pairLe ps).map Prod.snd).Perm (ps.map Prod.snd) :=
            (List.perm_insertionSort pairLe ps).map Prod.snd
          rw [hmap] at hp
          exact hp
      · rw [if_neg hline] at h
        obtain rfl := (Except.ok.inj h).symm
        exact List.perm_insertionSort strLe _
    · rw [if_neg hmem] at h
      obtain rfl := (Except.ok.inj h).symm
      rw [colVals_not_mem hmem]
      exact List.Perm.refl _
  · intro df l h
    unfold get_unique_values at h
    by_cases hmem : "line" ∈ df.headers
    · rw [if_pos hmem, if_pos rfl] at h
      unfold sortedByKey at h
      cases hd : decorate lineKey (uniqueFirst (colVals df "line")) with
      | error e => rw [hd] at h; exact Except.noConfusion h
      | ok ps =>
        rw [hd] at h
        obtain rfl := (Except.ok.inj h).symm
        have hks : ∀ p ∈ List.insertionSort pairLe ps, lineKey p.2 = Except.ok p.1 := by
          intro p hp
          exact (decorate_ok hd).2 p ((List.perm_insertionSort pairLe ps).mem_iff.mp hp)
        have hsorted : List.Pairwise pairLe (List.insertionSort pairLe ps) :=
          List.sorted_insertionSort pairLe ps
        have h2 : List.Pairwise (fun p q : Int × String => ∀ ka kb,
            lineKey p.2 = Except.ok ka → lineKey q.2 = Except.ok kb → ka ≤ kb)
            (List.insertionSort pairLe ps) := by
          refine hsorted.imp_of_mem ?_
          intro p q hp hq hle ka kb hka hkb
          rw [hks p hp] at hka
          rw [hks q hq] at hkb
          rw [← Except.ok.inj hka, ← Except.ok.inj hkb]
          exact hle
        exact h2.map Prod.snd (fun p q hr => hr)
    · rw [if_neg hmem] at h
      obtain rfl := (Except.ok.inj h).symm
      exact List.Pairwise.nil
  · intro df column l hne h
    unfold get_unique_values at h
    by_cases hmem : column ∈ df.headers
    · rw [if_pos hmem, if_neg hne] at h
      obtain rfl := (Except.ok.inj h).symm
      exact List.sorted_insertionSort strLe _
    · rw [if_neg hmem] at h
      obtain rfl := (Except.ok.inj h).symm
      exact List.Pairwise.nil

/-- Closed instance of `spec_C8_unique_values`: the returned list on
`dfLines` is a permutation of the distinct line labels. -/
theorem spec_C8_witness :
    (["1호선", "2호선", "10호선"] : List String).Perm (uniqueFirst (colVals dfLines "line")) :=
  spec_C8_unique_values.1 dfLines "line" ["1호선", "2호선", "10호선"] (by decide)

lemma dayStage_eq (o : Option String) (l : List LongRow) :
    dayStage o l = l.filter (dayGuard o) := by
  cases o with
  | none => simp [dayStage, dayGuard]
  | some d => by_cases hd : d = "" <;> simp [dayStage, dayGuard, hd]

lemma isinStage_eq (get : LongRow → Cell) (sel : List String) (l : List LongRow) :
    isinStage get sel l = l.filter (listGuard get sel) := by
  by_cases hs : sel.isEmpty <;> simp [isinStage, listGuard, hs]

lemma timeStage_eq (o : Option (String × String)) (l : List LongRow) :
    timeStage o l = l.filter (timeGuard o) := by
  cases o <;> simp [timeStage, timeGuard]

lemma congStage_eq (o : Option (Int × Int)) (l : List LongRow) :
    congStage o l = l.filter (congGuard o) := by
  cases o <;> simp [congStage, congGuard]

lemma filter_data_eq (rows : List LongRow) (f : Filters) :
    filter_data rows f = rows.filter (filterPred f) := by
  simp only [filter_data, dayStage_eq, isinStage_eq, timeStage_eq, congStage_eq,
    List.filter_filter, filterPred]
  rfl

/-- C9: applying the same filter configuration twice yields the same
result as applying it once; `filter_data` is a pure function of its
arguments (it never mutates the input list). -/
theorem spec_C9_filter_idempotent (rows : List LongRow) (f : Filters) :
    filter_data (filter_data rows f) f = filter_data rows f := by
  rw [filter_data_eq, filter_data_eq, List.filter_filter]
  apply List.filter_congr
  intro r _
  exact Bool.and_self (filterPred f r)

/-- C10: a missing value in one of the identifying text columns (요일구분,
호선, 출발역, 상하구분) is turned by `clean_data` into the literal string
`"nan"` (string conversion before trimming), and such cells reach the
pipeline output as `"nan"`, not as missing — on `dfNaLine` the missing line
label appears as `line = "nan"` in the reshaped output. -/
theorem spec_C10_nan_literal :
    (∀ (df : DataFrame) (i j : Nat),
      j < df.headers.length →
      pyStrip (df.headers.getD j "") ∈ textCols →
      i < df.rows.length →
      j < (df.rows.getD i []).length →
      df.cell i j = Cell.na →
      (clean_data df).cell i j = Cell.str "nan")
    ∧ melt_to_long (clean_data dfNaLine) = Except.ok [rowNaLine] := by
  refine ⟨?_, by decide⟩
  intro df i j hj htext hi hrowj hcell
  have hrowD : df.rows.getD i [] = df.rows[i] := List.getD_eq_getElem df.rows [] hi
  have houter : (clean_data df).rows.getD i [] =
      ((df.headers.map pyStrip).zip df.rows[i]).map (fun p => cleanCell p.1 p.2) := by
    show (df.rows.map _).getD i [] = _
    rw [List.getD_eq_getElem?_getD, List.getElem?_map, List.getElem?_eq_getElem hi]
    rfl
  have hjz : j < ((df.headers.map pyStrip).zip df.rows[i]).length := by
    rw [List.length_zip, List.length_map]
    exact lt_min hj (hrowD ▸ hrowj)
  have hjm : j < (((df.headers.map pyStrip).zip df.rows[i]).map
      (fun p => cleanCell p.1 p.2)).length := by
    rwa [List.length_map]
  have hhd : df.headers[j] = df.headers.getD j "" := (List.getD_eq_getElem df.headers "" hj).symm
  have hjr : j < df.rows[i].length := hrowD ▸ hrowj
  have hcl : df.rows[i][j] = Cell.na := by
    have h2 : df.cell i j = df.rows[i][j] := by
      unfold DataFrame.cell
      rw [hrowD, List.getD_eq_getElem _ _ hjr]
    rw [← h2, hcell]
  unfold DataFrame.cell
  rw [houter, List.getD_eq_getElem _ _ hjm, List.getElem_map, List.getElem_zip]
  dsimp only
  rw [List.getElem_map, hcl, hhd]
  unfold cleanCell
  rw [if_pos htext]
  decide

/-- Closed instance of `spec_C10_nan_literal`: the missing 호선 cell of
`dfNaLine` (row 0, column 1) cleans to the literal string `"nan"`. -/
theorem spec_C10_witness : (clean_data dfNaLine).cell 0 1 = Cell.str "nan" :=
  spec_C10_nan_literal.1 dfNaLine 0 1 (by decide) (by decide) (by decide) (by decide) (by decide)

/-- Closed instance of `spec_C9_filter_idempotent` at a concrete dataset
and a fully populated filter configuration. -/
theorem spec_C9_witness :
    filter_data (filter_data [rowScenarioNA] fSample) fSample =
      filter_data [rowScenarioNA] fSample :=
  spec_C9_filter_idempotent [rowScenarioNA] fSample
